import Mathlib

/-!
Verification of the patient appointment scheduling API.

The development shallowly embeds the appointment data model and the
operations of the scheduling rule engine:

* `Appointment.clean` embeds `Appointment.clean` from
  `appointments/models.py` (past-date check, then same-day double-booking
  check over the appointment store, excluding the record itself by id).
* `Appointment.save` embeds `Appointment.save`, which runs `full_clean`
  (hence `clean`) before persisting, updating the row with the same id
  when it exists and inserting otherwise.
* `validateSerializer` embeds `AppointmentSerializer.validate_appointment_date`
  together with `AppointmentSerializer.validate` from
  `appointments/serializers.py` (field-level past-date rejection first,
  then the same-day conflict query, excluding `self.instance` only when
  updating).
* `createAppointment` / `updateAppointment` embed the serializer-mediated
  create and (full) update paths; `checkInOp`, `completeOp`, `cancelOp`
  embed the `check_in`, `complete` and `cancel` actions of
  `AppointmentViewSet` in `appointments/views.py`.
* `statistics` and `upcomingEndpoint` embed the read-side aggregate
  actions `statistics` and `upcoming` of `AppointmentViewSet`.
* `Patient.age` embeds the `age` property of `Patient` in
  `appointments/models.py`.

Date-times are minutes since an epoch (`Nat`); the calendar date of a
date-time is `calDate`, its day number.  Error kinds follow the spec's
taxonomy: the past-date rejection is a `validationError`, the
double-booking rejection a `conflictError`, the status-policy rejection
of the transition endpoints a `transitionError` (HTTP 400 with an error
message in the source), and a missing record is `notFound` (HTTP 404).
-/

/-- Exam types, from `Appointment.EXAM_TYPE_CHOICES` in models.py. -/
inductive ExamType
  | mriBrain | mriSpine | mriKnee | mriShoulder | mriAbdomen
  | ctHead | ctChest | ctAbdomen
  | xrayChest | xraySpine | ultrasound
deriving DecidableEq, Repr

/-- Appointment statuses, from `Appointment.STATUS_CHOICES` in models.py. -/
inductive Status
  | scheduled | confirmed | checkedIn | inProgress | completed | noShow | cancelled
deriving DecidableEq, Repr

/-- The statuses the double-booking query treats as active:
`status__in=[SCHEDULED, CONFIRMED, CHECKED_IN]` in models.py and
serializers.py. -/
def Status.isActive : Status → Bool
  | .scheduled => true
  | .confirmed => true
  | .checkedIn => true
  | _ => false

/-- Minutes in a calendar day; date-times are minutes since an epoch. -/
def minutesPerDay : Nat := 1440

/-- Calendar date (day number) of a date-time, the embedding of
`appointment_date.date()` / the `__date` lookup. -/
def calDate (t : Nat) : Nat := t / minutesPerDay

/-- An appointment row, mirroring the fields of the `Appointment` model
that carry data (audit timestamps omitted).  `patient` is the foreign
key to the patient record. -/
structure Appointment where
  id : Nat
  patient : Nat
  appointmentDate : Nat
  examType : ExamType
  status : Status
  referringPhysician : String
  clinicalIndication : String
  specialInstructions : String
  durationMinutes : Nat
  roomNumber : String
deriving DecidableEq, Repr

/-- The writable fields a caller supplies to the serializer on create or
full update.  `status` is a writable field with model default SCHEDULED,
so the caller may supply it or omit it (`none`). -/
structure AppointmentInput where
  patient : Nat
  appointmentDate : Nat
  examType : ExamType
  status : Option Status
  referringPhysician : String
  clinicalIndication : String
  specialInstructions : String
  durationMinutes : Nat
  roomNumber : String
deriving DecidableEq, Repr

/-- Error kinds reported to the caller, per the spec's error taxonomy. -/
inductive ApiError
  | validationError (msg : String)
  | conflictError (msg : String)
  | transitionError (msg : String)
  | notFound
deriving DecidableEq, Repr

/-- The past-date rejection message of models.py and serializers.py. -/
def pastMsg : String := "Cannot schedule appointments in the past"

/-- The double-booking rejection message (static part of the f-string). -/
def conflictMsg : String := "already has an appointment on this date"

/-- The appointment store: the rows of the appointment table. -/
abbrev Store := List Appointment

/-- The double-booking query of models.py and serializers.py: does the
store hold an appointment of patient `p` whose calendar date equals that
of date-time `t` with an active status, excluding the pk `excluded` when
one is given (`.exclude(pk=...)`). -/
def hasActiveSameDay (store : Store) (p t : Nat) (excluded : Option Nat) : Bool :=
  store.any (fun b =>
    (match excluded with
     | some pk => b.id != pk
     | none => true) &&
    b.patient == p &&
    calDate b.appointmentDate == calDate t &&
    b.status.isActive)

/-- Embedding of `Appointment.clean` (models.py): reject a past
`appointment_date`, then reject when another appointment of the same
patient on the same calendar date holds an active status, excluding the
row with this record's own pk (`.exclude(pk=self.pk)`). -/
def Appointment.clean (store : Store) (a : Appointment) (now : Nat) :
    Except ApiError Unit :=
  if a.appointmentDate < now then
    .error (.validationError pastMsg)
  else if hasActiveSameDay store a.patient a.appointmentDate (some a.id) then
    .error (.conflictError conflictMsg)
  else
    .ok ()

/-- Embedding of `Appointment.save` (models.py): run `full_clean` (hence
`clean`), then persist — update the row with this pk when present,
insert otherwise. -/
def Appointment.save (store : Store) (a : Appointment) (now : Nat) :
    Except ApiError Store :=
  match Appointment.clean store a now with
  | .error e => .error e
  | .ok _ =>
    if store.any (fun b => b.id == a.id) then
      .ok (store.map (fun b => if b.id == a.id then a else b))
    else
      .ok (a :: store)

/-- Embedding of the serializer-side validation
(`validate_appointment_date` then `validate` in serializers.py):
field-level past-date rejection first, then the same-day conflict query
over appointments of the same patient with an active status, excluding
`self.instance` (`excluded`) only when updating. -/
def validateSerializer (store : Store) (input : AppointmentInput)
    (excluded : Option Nat) (now : Nat) : Except ApiError Unit :=
  if input.appointmentDate < now then
    .error (.validationError pastMsg)
  else if hasActiveSameDay store input.patient input.appointmentDate excluded then
    .error (.conflictError conflictMsg)
  else
    .ok ()

/-- A fresh primary key: one more than the largest id in the store. -/
def freshId (store : Store) : Nat :=
  store.foldr (fun a m => max a.id m) 0 + 1

/-- Build the row a create persists: the caller's fields, with the model
default status SCHEDULED when the caller omitted `status`. -/
def mkAppointment (id : Nat) (i : AppointmentInput) : Appointment :=
  { id := id
    patient := i.patient
    appointmentDate := i.appointmentDate
    examType := i.examType
    status := i.status.getD .scheduled
    referringPhysician := i.referringPhysician
    clinicalIndication := i.clinicalIndication
    specialInstructions := i.specialInstructions
    durationMinutes := i.durationMinutes
    roomNumber := i.roomNumber }

/-- Embedding of the create path: serializer validation with no excluded
instance, then `save` of a fresh row. -/
def createAppointment (store : Store) (i : AppointmentInput) (now : Nat) :
    Except ApiError Store :=
  match validateSerializer store i none now with
  | .error e => .error e
  | .ok _ => Appointment.save store (mkAppointment (freshId store) i) now

/-- The row a full update persists: the existing pk with every writable
field taken from the caller's payload (the model default SCHEDULED when
the caller omitted `status`). -/
def mergeInput (old : Appointment) (i : AppointmentInput) : Appointment :=
  { old with
    patient := i.patient
    appointmentDate := i.appointmentDate
    examType := i.examType
    status := i.status.getD .scheduled
    referringPhysician := i.referringPhysician
    clinicalIndication := i.clinicalIndication
    specialInstructions := i.specialInstructions
    durationMinutes := i.durationMinutes
    roomNumber := i.roomNumber }

/-- Embedding of the full-update path: 404 when the pk is unknown, then
serializer validation excluding this instance, then `save` of the merged
row (same pk, caller's fields). -/
def updateAppointment (store : Store) (id : Nat) (i : AppointmentInput)
    (now : Nat) : Except ApiError Store :=
  match store.find? (fun b => b.id == id) with
  | none => .error .notFound
  | some old =>
    match validateSerializer store i (some id) now with
    | .error e => .error e
    | .ok _ => Appointment.save store (mergeInput old i) now

/-- Embedding of the `check_in` action (views.py): 404 when unknown,
policy rejection unless the status is CONFIRMED, otherwise set
CHECKED_IN and `save`. -/
def checkInOp (store : Store) (id : Nat) (now : Nat) :
    Except ApiError Store :=
  match store.find? (fun b => b.id == id) with
  | none => .error .notFound
  | some a =>
    if a.status != .confirmed then
      .error (.transitionError "Can only check in confirmed appointments")
    else
      Appointment.save store { a with status := .checkedIn } now

/-- Embedding of the `complete` action (views.py): 404 when unknown,
policy rejection unless the status is CHECKED_IN or IN_PROGRESS,
otherwise set COMPLETED and `save`. -/
def completeOp (store : Store) (id : Nat) (now : Nat) :
    Except ApiError Store :=
  match store.find? (fun b => b.id == id) with
  | none => .error .notFound
  | some a =>
    if !(a.status == .checkedIn || a.status == .inProgress) then
      .error (.transitionError "Can only complete checked-in or in-progress appointments")
    else
      Appointment.save store { a with status := .completed } now

/-- Embedding of the `cancel` action (views.py): 404 when unknown,
policy rejection when the status is COMPLETED, otherwise set CANCELLED
and `save`. -/
def cancelOp (store : Store) (id : Nat) (now : Nat) :
    Except ApiError Store :=
  match store.find? (fun b => b.id == id) with
  | none => .error .notFound
  | some a =>
    if a.status == .completed then
      .error (.transitionError "Cannot cancel completed appointments")
    else
      Appointment.save store { a with status := .cancelled } now

/-- The write operations of the API. -/
inductive Op
  | create (i : AppointmentInput)
  | update (id : Nat) (i : AppointmentInput)
  | checkIn (id : Nat)
  | complete (id : Nat)
  | cancel (id : Nat)
deriving Repr

/-- Run one operation against the store at time `now`; a rejected write
leaves the store unchanged. -/
def stepOp (store : Store) (op : Op) (now : Nat) : Store :=
  match (match op with
    | .create i => createAppointment store i now
    | .update id i => updateAppointment store id i now
    | .checkIn id => checkInOp store id now
    | .complete id => completeOp store id now
    | .cancel id => cancelOp store id now) with
  | .ok s => s
  | .error _ => store

/-- Run a sequence of timestamped operations from the empty store (the
last list element is performed first). -/
def runOps : List (Op × Nat) → Store
  | [] => []
  | (op, now) :: rest => stepOp (runOps rest) op now

/-- An appointment of patient `p` on calendar date `d` holding an active
status — the records counted by the double-booking invariant. -/
def activeOn (p d : Nat) (a : Appointment) : Bool :=
  a.patient == p && calDate a.appointmentDate == d && a.status.isActive

/-- At most one active appointment per patient per calendar date. -/
def atMostOneActive (s : Store) : Prop :=
  ∀ p d : Nat, s.countP (activeOn p d) ≤ 1

/-- The read-side aggregates of the `statistics` action (views.py):
total count, count scheduled today, count of upcoming
active-SCHEDULED-or-CONFIRMED appointments, and the counts grouped by
status and by exam type. -/
structure Stats where
  totalAppointments : Nat
  today : Nat
  upcoming : Nat
  byStatus : Status → Nat
  byExamType : ExamType → Nat

/-- Embedding of the `statistics` action (views.py). -/
def statistics (s : Store) (now : Nat) : Stats :=
  { totalAppointments := s.length
    today := (s.filter (fun a => calDate a.appointmentDate == calDate now)).length
    upcoming := (s.filter (fun a =>
        now ≤ a.appointmentDate &&
        (a.status == .scheduled || a.status == .confirmed))).length
    byStatus := fun st => (s.filter (fun a => a.status == st)).length
    byExamType := fun et => (s.filter (fun a => a.examType == et)).length }

/-- Embedding of the `upcoming` action (views.py): appointments whose
date-time lies in the inclusive range from now to `days` days ahead with
status SCHEDULED or CONFIRMED, ordered by date. -/
def upcomingEndpoint (s : Store) (now days : Nat) : List Appointment :=
  (s.filter (fun a =>
      now ≤ a.appointmentDate && a.appointmentDate ≤ now + days * minutesPerDay &&
      (a.status == .scheduled || a.status == .confirmed))).mergeSort
    (fun a b => a.appointmentDate ≤ b.appointmentDate)

/-- A calendar date with year, month and day fields, for the patient
age computation. -/
structure CalendarDate where
  year : Nat
  month : Nat
  day : Nat
deriving DecidableEq, Repr

/-- Lexicographic comparison of (month, day) pairs, the embedding of
Python's tuple comparison in the age computation. -/
def pairBefore (a b : Nat × Nat) : Bool :=
  a.1 < b.1 || (a.1 == b.1 && a.2 < b.2)

/-- Embedding of the `Patient.age` property (models.py): year difference
minus one when today's (month, day) has not reached the birth
(month, day). -/
def Patient.age (dateOfBirth today : CalendarDate) : Int :=
  (today.year : Int) - (dateOfBirth.year : Int) -
    (if pairBefore (today.month, today.day) (dateOfBirth.month, dateOfBirth.day)
     then 1 else 0)

/-- Is the result a rejection of kind ConflictError? -/
def isConflictError : Except ApiError Store → Bool
  | .error (.conflictError _) => true
  | _ => false

/-- Count of appointments with a given status (read-side aggregate as
the spec words it). -/
def countWithStatus (s : Store) (st : Status) : Nat :=
  s.countP (fun a => a.status == st)

/-- Count of appointments with a given exam type (read-side aggregate
as the spec words it). -/
def countWithExamType (s : Store) (et : ExamType) : Nat :=
  s.countP (fun a => a.examType == et)

/-- Count of appointments on a given calendar date (read-side aggregate
as the spec words it). -/
def countOnDate (s : Store) (d : Nat) : Nat :=
  s.countP (fun a => calDate a.appointmentDate == d)

/-- Count of appointments in the inclusive window from `now` to `days`
days ahead whose status is SCHEDULED or CONFIRMED — what the `upcoming`
endpoint of views.py counts. -/
def countUpcomingActive (s : Store) (now days : Nat) : Nat :=
  s.countP (fun a =>
    now ≤ a.appointmentDate && a.appointmentDate ≤ now + days * minutesPerDay &&
    (a.status == .scheduled || a.status == .confirmed))

/-- Modelled from the spec: the count of upcoming appointments within N
days exactly as the claim words it — every appointment with scheduled
date-time between the current time and N days ahead, with no status
condition. -/
def claimedUpcomingCount (s : Store) (now days : Nat) : Nat :=
  s.countP (fun a =>
    now ≤ a.appointmentDate && a.appointmentDate ≤ now + days * minutesPerDay)

/-- A sample create payload: patient 1, date-time 2000 (calendar date 1),
no caller-supplied status. -/
def sampleInput : AppointmentInput :=
  { patient := 1
    appointmentDate := 2000
    examType := .mriBrain
    status := none
    referringPhysician := "Dr Test"
    clinicalIndication := ""
    specialInstructions := ""
    durationMinutes := 30
    roomNumber := "" }

/-- The row the sample create persists: id 1, status SCHEDULED. -/
def sampleAppt : Appointment := mkAppointment 1 sampleInput

/-- The sample payload with a caller-supplied CONFIRMED status. -/
def confirmedInput : AppointmentInput := { sampleInput with status := some .confirmed }

/-- A second payload for patient 1 on the same calendar date (1) at a
different time of day. -/
def sameDayInput : AppointmentInput := { sampleInput with appointmentDate := 2500 }

/-- A payload for patient 1 whose date-time 1500 shares calendar date 1
with `sampleAppt` and lies in the past once `now` exceeds 1500. -/
def pastSameDayInput : AppointmentInput := { sampleInput with appointmentDate := 1500 }

/-- The sample row with status CONFIRMED. -/
def confirmedAppt : Appointment := { sampleAppt with status := .confirmed }

/-- The sample row with status CHECKED_IN. -/
def checkedInAppt : Appointment := { sampleAppt with status := .checkedIn }

/-- C4: a confirmed appointment whose scheduled date-time (1000+1000=2000)
lies before the current time 5000 satisfies the claimed precondition
(status CONFIRMED), yet check-in is rejected: the save re-runs the model
validation and its past-date check raises a ValidationError, so check-in
does not succeed and the status stays CONFIRMED in the store. -/
theorem c4_checkin_past_confirmed_fails :
    confirmedAppt.status = .confirmed ∧
    confirmedAppt.appointmentDate < 5000 ∧
    checkInOp [confirmedAppt] 1 5000 = .error (.validationError pastMsg) := by
  refine ⟨rfl, by decide, rfl⟩

/-- C5: a checked-in appointment whose scheduled date-time lies before
the current time 5000 satisfies the claimed precondition (status
CHECKED_IN), yet complete is rejected: the save re-runs the model
validation and its past-date check raises a ValidationError. -/
theorem c5_complete_past_checkedin_fails :
    checkedInAppt.status = .checkedIn ∧
    checkedInAppt.appointmentDate < 5000 ∧
    completeOp [checkedInAppt] 1 5000 = .error (.validationError pastMsg) := by
  refine ⟨rfl, by decide, rfl⟩

/-- C6: a scheduled (hence not COMPLETED) appointment whose scheduled
date-time lies before the current time 5000 satisfies the claimed
precondition (status differs from COMPLETED), yet cancel is rejected:
the save re-runs the model validation and its past-date check raises a
ValidationError. -/
theorem c6_cancel_past_scheduled_fails :
    sampleAppt.status ≠ .completed ∧
    sampleAppt.appointmentDate < 5000 ∧
    cancelOp [sampleAppt] 1 5000 = .error (.validationError pastMsg) := by
  refine ⟨by decide, by decide, rfl⟩

/-- C1 counterexample: the store holds the active appointment
`sampleAppt` of patient 1 on calendar date 1; the candidate create for
patient 1 at date-time 1500 (the same calendar date) at current time
3000 has a same-day active conflict, so the claim requires a rejection
with ConflictError — but the write is rejected with the past-date
ValidationError instead, because the past-date check runs first. -/
theorem c1_past_conflict_not_conflict_error :
    hasActiveSameDay [sampleAppt] pastSameDayInput.patient
      pastSameDayInput.appointmentDate none = true ∧
    createAppointment [sampleAppt] pastSameDayInput 3000 =
      .error (.validationError pastMsg) ∧
    isConflictError (createAppointment [sampleAppt] pastSameDayInput 3000) = false := by
  refine ⟨rfl, rfl, rfl⟩

/-- C9 counterexample: the serializer's `status` field is writable, so a
create that supplies status CONFIRMED is accepted and the stored
appointment has status CONFIRMED, not SCHEDULED. -/
theorem c9_created_with_supplied_status :
    createAppointment [] confirmedInput 1000 = .ok [mkAppointment 1 confirmedInput] ∧
    (mkAppointment 1 confirmedInput).status = .confirmed ∧
    (mkAppointment 1 confirmedInput).status ≠ .scheduled := by
  refine ⟨rfl, rfl, by decide⟩

/-- The sample row cancelled and rescheduled to date-time 1010. -/
def cancelledSoonAppt : Appointment :=
  { sampleAppt with status := .cancelled, appointmentDate := 1010 }

/-- C10 counterexample: a CANCELLED appointment at date-time 1010 lies
in the window from now = 1000 to 7 days ahead, so the claim's count of
upcoming appointments within 7 days is 1, but the `upcoming` endpoint
filters on status SCHEDULED or CONFIRMED and returns no appointment. -/
theorem c10_upcoming_misses_cancelled :
    (upcomingEndpoint [cancelledSoonAppt] 1000 7).length = 0 ∧
    claimedUpcomingCount [cancelledSoonAppt] 1000 7 = 1 := by
  rw [upcomingEndpoint, List.length_mergeSort]
  exact ⟨rfl, rfl⟩

/-- C8: the derived patient age is the year difference between the
current date and the date of birth, decremented by one exactly when the
current (month, day) pair lexicographically precedes the birth
(month, day) pair; in particular a patient born 2000-06-15 has age 23
on 2024-06-14 and age 24 on 2024-06-15. -/
theorem c8_age_years_with_birthday_cutoff :
    (∀ dateOfBirth today : CalendarDate,
      (pairBefore (today.month, today.day) (dateOfBirth.month, dateOfBirth.day) = false →
        Patient.age dateOfBirth today = (today.year : Int) - (dateOfBirth.year : Int)) ∧
      (pairBefore (today.month, today.day) (dateOfBirth.month, dateOfBirth.day) = true →
        Patient.age dateOfBirth today = (today.year : Int) - (dateOfBirth.year : Int) - 1)) ∧
    Patient.age ⟨2000, 6, 15⟩ ⟨2024, 6, 14⟩ = 23 ∧
    Patient.age ⟨2000, 6, 15⟩ ⟨2024, 6, 15⟩ = 24 := by
  refine ⟨fun dob today => ⟨fun h => ?_, fun h => ?_⟩, by decide, by decide⟩
  · simp [Patient.age, h]
  · simp [Patient.age, h]

/-- C8 witness: the general characterization applied at the concrete
scenario date 2024-06-14 for a birth date of 2000-06-15, where the
(month, day) pair has not yet been reached. -/
theorem c8_age_years_with_birthday_cutoff_witness :
    pairBefore (6, 14) (6, 15) = true ∧
    Patient.age ⟨2000, 6, 15⟩ ⟨2024, 6, 14⟩ = (2024 : Int) - 2000 - 1 :=
  ⟨by decide,
   (c8_age_years_with_birthday_cutoff.1 ⟨2000, 6, 15⟩ ⟨2024, 6, 14⟩).2 (by decide)⟩

theorem hasActive_none_iff {s : Store} {p t : Nat} :
    hasActiveSameDay s p t none = true ↔
      ∃ b ∈ s, b.patient = p ∧ calDate b.appointmentDate = calDate t ∧
        b.status.isActive = true := by
  simp [hasActiveSameDay, List.any_eq_true, Bool.and_eq_true, beq_iff_eq, and_assoc]

theorem hasActive_some_iff {s : Store} {p t pk : Nat} :
    hasActiveSameDay s p t (some pk) = true ↔
      ∃ b ∈ s, b.id ≠ pk ∧ b.patient = p ∧ calDate b.appointmentDate = calDate t ∧
        b.status.isActive = true := by
  simp [hasActiveSameDay, List.any_eq_true, Bool.and_eq_true, beq_iff_eq, bne_iff_ne,
    and_assoc]

theorem hasActive_none_of_some {s : Store} {p t pk : Nat}
    (h : hasActiveSameDay s p t (some pk) = true) :
    hasActiveSameDay s p t none = true := by
  rw [hasActive_some_iff] at h
  rw [hasActive_none_iff]
  obtain ⟨b, hb, _, rest⟩ := h
  exact ⟨b, hb, rest⟩

theorem hasActive_some_of_none_false {s : Store} {p t : Nat}
    (h : hasActiveSameDay s p t none = false) (pk : Nat) :
    hasActiveSameDay s p t (some pk) = false := by
  cases hsome : hasActiveSameDay s p t (some pk) with
  | false => rfl
  | true => rw [hasActive_none_of_some hsome] at h; cases h

/-- C3: a create or update whose scheduled date-time lies strictly in
the past at validation time is rejected with the past-date
ValidationError, and the rejected write leaves the store unchanged. -/
theorem c3_past_date_rejected (s : Store) (i : AppointmentInput) (id now : Nat)
    (hpast : i.appointmentDate < now)
    (hid : (s.find? (fun b => b.id == id)).isSome = true) :
    createAppointment s i now = .error (.validationError pastMsg) ∧
    stepOp s (.create i) now = s ∧
    updateAppointment s id i now = .error (.validationError pastMsg) ∧
    stepOp s (.update id i) now = s := by
  obtain ⟨old, hf⟩ := Option.isSome_iff_exists.mp hid
  have hvn : validateSerializer s i none now = .error (.validationError pastMsg) := by
    simp [validateSerializer, hpast]
  have hvs : validateSerializer s i (some id) now = .error (.validationError pastMsg) := by
    simp [validateSerializer, hpast]
  refine ⟨?_, ?_, ?_, ?_⟩ <;>
    simp [createAppointment, updateAppointment, stepOp, hvn, hvs, hf]

/-- C3 witness: at current time 3000, the create and the update of
record 1 with the past payload (date-time 1500) are both rejected with
the past-date ValidationError and leave the one-row store unchanged. -/
theorem c3_past_date_rejected_witness :
    createAppointment [sampleAppt] pastSameDayInput 3000 =
      .error (.validationError pastMsg) ∧
    stepOp [sampleAppt] (.create pastSameDayInput) 3000 = [sampleAppt] ∧
    updateAppointment [sampleAppt] 1 pastSameDayInput 3000 =
      .error (.validationError pastMsg) ∧
    stepOp [sampleAppt] (.update 1 pastSameDayInput) 3000 = [sampleAppt] :=
  c3_past_date_rejected [sampleAppt] pastSameDayInput 1 3000 (by decide) (by decide)

/-- C7: the transition endpoints persist through a save that re-runs the
full model validation, so for an appointment whose scheduled date-time
is strictly in the past, check-in, complete and cancel each raise the
past-date ValidationError even when their status precondition holds. -/
theorem c7_transitions_revalidate (s : Store) (id now : Nat) (a : Appointment)
    (hf : s.find? (fun b => b.id == id) = some a)
    (hpast : a.appointmentDate < now) :
    (a.status = .confirmed →
      checkInOp s id now = .error (.validationError pastMsg)) ∧
    ((a.status = .checkedIn ∨ a.status = .inProgress) →
      completeOp s id now = .error (.validationError pastMsg)) ∧
    (a.status ≠ .completed →
      cancelOp s id now = .error (.validationError pastMsg)) := by
  refine ⟨fun hst => ?_, fun hst => ?_, fun hst => ?_⟩
  · simp [checkInOp, hf, hst, Appointment.save, Appointment.clean, hpast]
  · rcases hst with hst | hst <;>
      simp [completeOp, hf, hst, Appointment.save, Appointment.clean, hpast]
  · have hb : (a.status == Status.completed) = false := by
      simp [beq_eq_false_iff_ne, hst]
    simp [cancelOp, hf, hb, Appointment.save, Appointment.clean, hpast]

/-- C7 witness: the confirmed past-dated sample appointment at current
time 5000 — its check-in raises the past-date ValidationError. -/
theorem c7_transitions_revalidate_witness :
    checkInOp [confirmedAppt] 1 5000 = .error (.validationError pastMsg) :=
  (c7_transitions_revalidate [confirmedAppt] 1 5000 confirmedAppt rfl (by decide)).1 rfl

theorem mergeInput_id (old : Appointment) (i : AppointmentInput) :
    (mergeInput old i).id = old.id := rfl

theorem mergeInput_patient (old : Appointment) (i : AppointmentInput) :
    (mergeInput old i).patient = i.patient := rfl

theorem mergeInput_date (old : Appointment) (i : AppointmentInput) :
    (mergeInput old i).appointmentDate = i.appointmentDate := rfl

theorem mkAppointment_date (id : Nat) (i : AppointmentInput) :
    (mkAppointment id i).appointmentDate = i.appointmentDate := rfl

theorem mkAppointment_id (id : Nat) (i : AppointmentInput) :
    (mkAppointment id i).id = id := rfl

theorem mkAppointment_patient (id : Nat) (i : AppointmentInput) :
    (mkAppointment id i).patient = i.patient := rfl

/-- C1 (amended): when the temporal check passes (the scheduled
date-time is not in the past), a create is rejected with a ConflictError
exactly when some active-status appointment of the same patient on the
same calendar date exists, and an update of an existing record is
rejected with a ConflictError exactly when such an appointment other
than the updated record exists. -/
theorem c1_conflict_error_iff (s : Store) (i : AppointmentInput) (id now : Nat)
    (hfuture : now ≤ i.appointmentDate)
    (hid : (s.find? (fun b => b.id == id)).isSome = true) :
    (isConflictError (createAppointment s i now) = true ↔
      hasActiveSameDay s i.patient i.appointmentDate none = true) ∧
    (isConflictError (updateAppointment s id i now) = true ↔
      hasActiveSameDay s i.patient i.appointmentDate (some id) = true) := by
  have hnp : ¬ i.appointmentDate < now := not_lt.mpr hfuture
  obtain ⟨old, hf⟩ := Option.isSome_iff_exists.mp hid
  have hoid : old.id = id := by
    have hps := List.find?_some hf
    simpa using hps
  constructor
  · cases hc : hasActiveSameDay s i.patient i.appointmentDate none with
    | true =>
      have hv : validateSerializer s i none now =
          .error (.conflictError conflictMsg) := by
        simp [validateSerializer, hnp, hc]
      simp [createAppointment, hv, isConflictError]
    | false =>
      have hv : validateSerializer s i none now = .ok () := by
        simp [validateSerializer, hnp, hc]
      have hclean : Appointment.clean s (mkAppointment (freshId s) i) now = .ok () := by
        simp [Appointment.clean, mkAppointment_date, mkAppointment_patient, hnp,
          hasActive_some_of_none_false hc]
      simp only [createAppointment, hv, Appointment.save, hclean]
      split <;> simp [isConflictError, hc]
  · cases hc : hasActiveSameDay s i.patient i.appointmentDate (some id) with
    | true =>
      have hv : validateSerializer s i (some id) now =
          .error (.conflictError conflictMsg) := by
        simp [validateSerializer, hnp, hc]
      simp [updateAppointment, hf, hv, isConflictError]
    | false =>
      have hv : validateSerializer s i (some id) now = .ok () := by
        simp [validateSerializer, hnp, hc]
      have hclean : Appointment.clean s (mergeInput old i) now = .ok () := by
        have h2 : hasActiveSameDay s i.patient i.appointmentDate (some old.id) = false := by
          rw [hoid]; exact hc
        simp [Appointment.clean, mergeInput_date, mergeInput_patient, mergeInput_id,
          hnp, h2]
      simp only [updateAppointment, hf, hv, Appointment.save, hclean]
      split <;> simp [isConflictError, hc]

/-- C1 witness: at current time 1000 with the active `sampleAppt` of
patient 1 on calendar date 1 in the store, the future-dated same-day
payload (date-time 2500) exhibits both directions — the create is
rejected with a ConflictError (the conflict query without exclusion
finds `sampleAppt`), while the update of record 1 itself is not (the
query excluding pk 1 finds nothing). -/
theorem c1_conflict_error_iff_witness :
    (isConflictError (createAppointment [sampleAppt] sameDayInput 1000) = true ↔
      hasActiveSameDay [sampleAppt] sameDayInput.patient
        sameDayInput.appointmentDate none = true) ∧
    (isConflictError (updateAppointment [sampleAppt] 1 sameDayInput 1000) = true ↔
      hasActiveSameDay [sampleAppt] sameDayInput.patient
        sameDayInput.appointmentDate (some 1) = true) :=
  c1_conflict_error_iff [sampleAppt] sameDayInput 1 1000 (by decide) (by decide)

theorem id_le_fold (s : Store) (b : Appointment) (hb : b ∈ s) :
    b.id ≤ s.foldr (fun a m => max a.id m) 0 := by
  induction s with
  | nil => cases hb
  | cons a t ih =>
    rcases List.mem_cons.mp hb with rfl | hb
    · exact le_max_left _ _
    · exact le_trans (ih hb) (le_max_right _ _)

theorem freshId_unused (s : Store) :
    s.any (fun b => b.id == freshId s) = false := by
  rw [List.any_eq_false]
  intro b hb
  simp only [beq_iff_eq, Bool.not_eq_true, decide_eq_false_iff_not]
  intro heq
  have := id_le_fold s b hb
  rw [heq, freshId] at this
  omega

/-- C9 (amended): an appointment accepted by the create operation has
status SCHEDULED whenever the caller did not supply a status — the
serializer's writable `status` field then falls back to the model
default; the accepted store is the fresh row prepended to the old
store. -/
theorem c9_create_default_scheduled (s : Store) (i : AppointmentInput) (now : Nat)
    (s' : Store) (hnone : i.status = none)
    (h : createAppointment s i now = .ok s') :
    s' = mkAppointment (freshId s) i :: s ∧
    (mkAppointment (freshId s) i).status = .scheduled := by
  have hstat : (mkAppointment (freshId s) i).status = .scheduled := by
    simp [mkAppointment, hnone]
  refine ⟨?_, hstat⟩
  cases hv : validateSerializer s i none now with
  | error e => simp [createAppointment, hv] at h
  | ok u =>
    cases hcl : Appointment.clean s (mkAppointment (freshId s) i) now with
    | error e => simp [createAppointment, hv, Appointment.save, hcl] at h
    | ok u2 =>
      have hun := freshId_unused s
      simp [createAppointment, hv, Appointment.save, hcl, mkAppointment_id, hun] at h
      exact h.symm

/-- C9 witness: the sample payload carries no status; its create from
the empty store at time 1000 is accepted and stores the fresh row with
status SCHEDULED. -/
theorem c9_create_default_scheduled_witness :
    [mkAppointment (freshId []) sampleInput] =
      mkAppointment (freshId []) sampleInput :: [] ∧
    (mkAppointment (freshId []) sampleInput).status = .scheduled :=
  c9_create_default_scheduled [] sampleInput 1000
    [mkAppointment (freshId []) sampleInput] rfl rfl

/-- C10 (amended): over the current store, the statistics aggregate
groups counts by status and by exam type and counts the appointments
scheduled on the current calendar date, and the upcoming endpoint
returns exactly the appointments of the inclusive window from now to N
days ahead whose status is SCHEDULED or CONFIRMED — so its length is
that count, which ignores appointments in the window holding any other
status. -/
theorem c10_read_aggregates (s : Store) (now days : Nat) (st : Status)
    (et : ExamType) :
    (statistics s now).byStatus st = countWithStatus s st ∧
    (statistics s now).byExamType et = countWithExamType s et ∧
    (statistics s now).today = countOnDate s (calDate now) ∧
    (upcomingEndpoint s now days).length = countUpcomingActive s now days := by
  refine ⟨?_, ?_, ?_, ?_⟩ <;>
    simp [statistics, countWithStatus, countWithExamType, countOnDate,
      countUpcomingActive, upcomingEndpoint, List.countP_eq_length_filter,
      List.length_mergeSort]

def idsNodup (s : Store) : Prop := (s.map (fun a => a.id)).Nodup

def storeInv (s : Store) : Prop := idsNodup s ∧ atMostOneActive s

theorem activeOn_true_elim {p d : Nat} {a : Appointment}
    (h : activeOn p d a = true) :
    a.patient = p ∧ calDate a.appointmentDate = d ∧ a.status.isActive = true := by
  simpa [activeOn, Bool.and_eq_true, beq_iff_eq, and_assoc] using h

theorem clean_ok_noConflict {s : Store} {a : Appointment} {now : Nat}
    (h : Appointment.clean s a now = .ok ()) :
    hasActiveSameDay s a.patient a.appointmentDate (some a.id) = false := by
  cases hx : hasActiveSameDay s a.patient a.appointmentDate (some a.id) with
  | false => rfl
  | true =>
    exfalso
    by_cases h1 : a.appointmentDate < now <;> simp [Appointment.clean, h1, hx] at h

theorem hasActive_some_false_elim {s : Store} {p t pk : Nat}
    (h : hasActiveSameDay s p t (some pk) = false) :
    ∀ b ∈ s, b.id ≠ pk → activeOn p (calDate t) b = false := by
  intro b hb hbid
  cases hx : activeOn p (calDate t) b with
  | false => rfl
  | true =>
    exfalso
    have hx' := activeOn_true_elim hx
    have : hasActiveSameDay s p t (some pk) = true := by
      rw [hasActive_some_iff]
      exact ⟨b, hb, hbid, hx'.1, hx'.2.1, hx'.2.2⟩
    rw [this] at h
    cases h

theorem countP_replace_le_one {s : Store} {a : Appointment}
    (hnodup : idsNodup s) (hone : atMostOneActive s)
    (hno : ∀ b ∈ s, b.id ≠ a.id →
      activeOn a.patient (calDate a.appointmentDate) b = false)
    (p d : Nat) :
    (s.map (fun b => if b.id == a.id then a else b)).countP (activeOn p d) ≤ 1 := by
  rw [List.countP_map]
  by_cases ha : activeOn p d a = true
  · obtain ⟨hp, hd, _⟩ := activeOn_true_elim ha
    have hle : List.countP ((activeOn p d) ∘ (fun b => if b.id == a.id then a else b)) s
        ≤ List.countP (fun b => b.id == a.id) s := by
      apply List.countP_mono_left
      intro b hb hpb
      simp only [Function.comp_apply] at hpb
      by_cases hid : b.id = a.id
      · simp [hid]
      · exfalso
        rw [if_neg (by simp [hid])] at hpb
        have hfalse := hno b hb hid
        rw [hp, hd] at hfalse
        rw [hpb] at hfalse
        cases hfalse
    have h2 : List.countP (fun b => b.id == a.id) s ≤ 1 := by
      have hc := List.nodup_iff_count_le_one.mp hnodup a.id
      calc List.countP (fun b => b.id == a.id) s
          = List.count a.id (s.map (fun b => b.id)) := by
            rw [List.count_eq_countP, List.countP_map]; rfl
        _ ≤ 1 := hc
    exact le_trans hle h2
  · refine le_trans (List.countP_mono_left ?_) (hone p d)
    intro b hb hpb
    simp only [Function.comp_apply] at hpb
    by_cases hid : b.id = a.id
    · rw [if_pos (by simp [hid])] at hpb
      exact absurd hpb ha
    · rw [if_neg (by simp [hid])] at hpb
      exact hpb

theorem countP_insert_le_one {s : Store} {a : Appointment}
    (hone : atMostOneActive s)
    (hno : ∀ b ∈ s, activeOn a.patient (calDate a.appointmentDate) b = false)
    (p d : Nat) :
    ((a :: s).countP (activeOn p d)) ≤ 1 := by
  rw [List.countP_cons]
  by_cases ha : activeOn p d a = true
  · obtain ⟨hp, hd, _⟩ := activeOn_true_elim ha
    have hz : s.countP (activeOn p d) = 0 := by
      rw [List.countP_eq_zero]
      intro b hb
      have hfalse := hno b hb
      rw [hp, hd] at hfalse
      simp [hfalse]
    simp [hz, ha]
  · simpa [ha] using hone p d

theorem ids_map_replace (s : Store) (a : Appointment) :
    (s.map (fun b => if b.id == a.id then a else b)).map (fun x => x.id)
      = s.map (fun x => x.id) := by
  rw [List.map_map]
  apply List.map_congr_left
  intro b hb
  simp only [Function.comp_apply]
  by_cases hid : b.id = a.id
  · rw [if_pos (by simp [hid])]
    exact hid.symm
  · rw [if_neg (by simp [hid])]

theorem ids_nodup_insert {s : Store} {a : Appointment}
    (hnodup : idsNodup s) (hmem : s.any (fun b => b.id == a.id) = false) :
    idsNodup (a :: s) := by
  rw [idsNodup, List.map_cons, List.nodup_cons]
  refine ⟨?_, hnodup⟩
  intro hmem2
  obtain ⟨b, hb, hbid⟩ := List.mem_map.mp hmem2
  have hany := List.any_eq_false.mp hmem b hb
  simp [hbid] at hany

theorem save_eq_of_clean_ok {s : Store} {a : Appointment} {now : Nat}
    (hcl : Appointment.clean s a now = .ok ()) :
    Appointment.save s a now =
      if s.any (fun b => b.id == a.id) then
        .ok (s.map (fun b => if b.id == a.id then a else b))
      else .ok (a :: s) := by
  unfold Appointment.save
  rw [hcl]

theorem save_ok_inv {s : Store} {a : Appointment} {now : Nat} {s' : Store}
    (hinv : storeInv s) (h : Appointment.save s a now = .ok s') : storeInv s' := by
  obtain ⟨hnodup, hone⟩ := hinv
  cases hcl : Appointment.clean s a now with
  | error e => simp [Appointment.save, hcl] at h
  | ok u =>
    cases u
    have hno := hasActive_some_false_elim (clean_ok_noConflict hcl)
    rw [save_eq_of_clean_ok hcl] at h
    rcases Bool.eq_false_or_eq_true (s.any (fun b => b.id == a.id)) with hmem | hmem
    · rw [if_pos hmem] at h
      injection h with h2
      subst h2
      exact ⟨by rw [idsNodup, ids_map_replace]; exact hnodup,
        fun p d => countP_replace_le_one hnodup hone hno p d⟩
    · rw [if_neg (by simp [hmem])] at h
      injection h with h2
      subst h2
      have hno' : ∀ b ∈ s, activeOn a.patient (calDate a.appointmentDate) b = false := by
        intro b hb
        refine hno b hb ?_
        have hany := List.any_eq_false.mp hmem b hb
        simpa using hany
      exact ⟨ids_nodup_insert hnodup hmem,
        fun p d => countP_insert_le_one hone hno' p d⟩

theorem create_ok_save {s : Store} {i : AppointmentInput} {now : Nat} {s' : Store}
    (h : createAppointment s i now = .ok s') :
    Appointment.save s (mkAppointment (freshId s) i) now = .ok s' := by
  cases hv : validateSerializer s i none now with
  | error e => simp [createAppointment, hv] at h
  | ok u =>
    cases u
    simpa [createAppointment, hv] using h

theorem update_ok_save {s : Store} {id : Nat} {i : AppointmentInput} {now : Nat}
    {s' : Store} (h : updateAppointment s id i now = .ok s') :
    ∃ old, Appointment.save s (mergeInput old i) now = .ok s' := by
  cases hf : s.find? (fun b => b.id == id) with
  | none => simp [updateAppointment, hf] at h
  | some old =>
    cases hv : validateSerializer s i (some id) now with
    | error e => simp [updateAppointment, hf, hv] at h
    | ok u =>
      cases u
      exact ⟨old, by simpa [updateAppointment, hf, hv] using h⟩

theorem checkIn_ok_save {s : Store} {id now : Nat} {s' : Store}
    (h : checkInOp s id now = .ok s') :
    ∃ a, Appointment.save s a now = .ok s' := by
  cases hf : s.find? (fun b => b.id == id) with
  | none => simp [checkInOp, hf] at h
  | some a =>
    rcases Bool.eq_false_or_eq_true (a.status != Status.confirmed) with hst | hst
    · simp [checkInOp, hf, hst] at h
    · exact ⟨{ a with status := .checkedIn }, by simpa [checkInOp, hf, hst] using h⟩

theorem complete_ok_save {s : Store} {id now : Nat} {s' : Store}
    (h : completeOp s id now = .ok s') :
    ∃ a, Appointment.save s a now = .ok s' := by
  cases hf : s.find? (fun b => b.id == id) with
  | none => simp [completeOp, hf] at h
  | some a =>
    rcases Bool.eq_false_or_eq_true
        (!(a.status == Status.checkedIn || a.status == Status.inProgress)) with hst | hst
    · simp [completeOp, hf, hst] at h
    · exact ⟨{ a with status := .completed }, by simpa [completeOp, hf, hst] using h⟩

theorem cancel_ok_save {s : Store} {id now : Nat} {s' : Store}
    (h : cancelOp s id now = .ok s') :
    ∃ a, Appointment.save s a now = .ok s' := by
  cases hf : s.find? (fun b => b.id == id) with
  | none => simp [cancelOp, hf] at h
  | some a =>
    rcases Bool.eq_false_or_eq_true (a.status == Status.completed) with hst | hst
    · simp [cancelOp, hf, hst] at h
    · exact ⟨{ a with status := .cancelled }, by simpa [cancelOp, hf, hst] using h⟩

theorem stepOp_inv {s : Store} (hinv : storeInv s) (op : Op) (now : Nat) :
    storeInv (stepOp s op now) := by
  cases op with
  | create i =>
    simp only [stepOp]
    cases hc : createAppointment s i now with
    | error e => exact hinv
    | ok s2 => exact save_ok_inv hinv (create_ok_save hc)
  | update id i =>
    simp only [stepOp]
    cases hc : updateAppointment s id i now with
    | error e => exact hinv
    | ok s2 =>
      obtain ⟨old, hsave⟩ := update_ok_save hc
      exact save_ok_inv hinv hsave
  | checkIn id =>
    simp only [stepOp]
    cases hc : checkInOp s id now with
    | error e => exact hinv
    | ok s2 =>
      obtain ⟨a, hsave⟩ := checkIn_ok_save hc
      exact save_ok_inv hinv hsave
  | complete id =>
    simp only [stepOp]
    cases hc : completeOp s id now with
    | error e => exact hinv
    | ok s2 =>
      obtain ⟨a, hsave⟩ := complete_ok_save hc
      exact save_ok_inv hinv hsave
  | cancel id =>
    simp only [stepOp]
    cases hc : cancelOp s id now with
    | error e => exact hinv
    | ok s2 =>
      obtain ⟨a, hsave⟩ := cancel_ok_save hc
      exact save_ok_inv hinv hsave

theorem runOps_inv (ops : List (Op × Nat)) : storeInv (runOps ops) := by
  induction ops with
  | nil =>
    refine ⟨List.nodup_nil, fun p d => ?_⟩
    simp [runOps]
  | cons x t ih =>
    obtain ⟨op, now⟩ := x
    exact stepOp_inv ih op now

/-- C2: every store state reachable from the empty store by the write
operations (create, update, check-in, complete, cancel) has at most one
appointment per patient per calendar date with a status in SCHEDULED,
CONFIRMED or CHECKED_IN, and one further operation applied to a
reachable state preserves that invariant. -/
theorem c2_active_uniqueness_invariant (ops : List (Op × Nat)) (op : Op) (now : Nat) :
    atMostOneActive (runOps ops) ∧ atMostOneActive (stepOp (runOps ops) op now) :=
  ⟨(runOps_inv ops).2, (stepOp_inv (runOps_inv ops) op now).2⟩
